import Mathlib

/-!
Shallow embedding of the omfietser-etl scraper fleet (AH, Jumbo, Kruidvat,
Plus scrapers and the AH FastAPI job-control surface), with proofs about the
persistence, pagination, retry and job-lifecycle behaviour of the code.

Conventions used throughout:
* External product ids are modelled as `Nat`; Python falsy ids (missing key,
  `None`, `0`, `""`) are collapsed into `Option.none`, matching the guards
  `if product_id and ...` in the source.
* A JSON file on disk is a `FileState`: missing, unparseable, or parsed
  content.  `json.load` of a corrupt file raises `PyErr.jsonDecodeError`.
* Network interaction is scripted: a loop's page fetches are driven by a
  function from the fetch sequence number to the fetched page, and the
  unbounded `while` loops of the source are given an explicit fuel argument
  (fuel exhaustion returns the current state; theorems supply enough fuel).
-/

namespace Omfietser

abbrev ProductId := Nat

/-- State of a JSON file on disk: absent, present but unparseable, or parsed. -/
inductive FileState (α : Type) where
  | missing
  | corrupt
  | valid (v : α)
deriving DecidableEq

/-- Reading a file, with a default for the missing/corrupt cases. -/
def FileState.loadOr {α : Type} (d : α) : FileState α → α
  | .valid v => v
  | _ => d

/-- Python exception classes raised by the modelled operations.  All of these
are subclasses of `Exception` except `keyboardInterrupt`. -/
inductive PyErr where
  | jsonDecodeError
  | fileNotFoundError
  | osError
  | typeError
  | valueError
  | keyboardInterrupt
deriving DecidableEq

/-- Whether an `except Exception` clause catches this error (`KeyboardInterrupt`
derives from `BaseException`, not `Exception`). -/
def PyErr.isException : PyErr → Bool
  | .keyboardInterrupt => false
  | _ => true

/-! ## Deduplicating product persistence

`AHScraper.write_products`, `JumboGraphQLOptimizedScraper.save_products` and
`OptimizedKruidvatScraper.save_data` all follow the same load–merge–write
pattern: load the existing file (corrupt or missing ⇒ start fresh), collect
the ids already present, append only incoming items whose id is present and
not yet in the file, and rewrite the whole file. -/

/-- The inner `for` loop of the persistence functions: walk the incoming items
in order, keeping an item exactly when it has a (truthy) id that is not in the
accumulated id set; accepted ids are added to the set as we go.  Returns the
accepted items and the final id set. -/
def dedupNew {α : Type} (getId : α → Option ProductId) :
    List α → List ProductId → List α × List ProductId
  | [], ids => ([], ids)
  | p :: ps, ids =>
    match getId p with
    | none => dedupNew getId ps ids
    | some i =>
      if i ∈ ids then dedupNew getId ps ids
      else
        let r := dedupNew getId ps (i :: ids)
        (p :: r.1, r.2)

/-- The shared body of `write_products` / `save_products` / `save_data` (list
branch): early-return when there is nothing to save, otherwise load the
existing list (missing or corrupt file ⇒ empty with a warning), merge, and
write the merged list back. -/
def mergeSave {α : Type} (getId : α → Option ProductId)
    (file : FileState (List α)) (items : List α) : FileState (List α) :=
  if items.isEmpty then file
  else
    let existing := file.loadOr []
    let existingIds := existing.filterMap getId
    .valid (existing ++ (dedupNew getId items existingIds).1)

/-- A raw AH product as returned by the mobile API; only the `webshopId` field
is inspected by the scraper's persistence logic. -/
structure AHProduct where
  webshopId : Option ProductId
  payload : Nat
deriving DecidableEq

/-- Embeds `AHScraper.write_products` (ah_scraper.py lines 360-393). -/
def AHScraper.write_products : FileState (List AHProduct) → List AHProduct →
    FileState (List AHProduct) :=
  mergeSave AHProduct.webshopId

/-- A Jumbo product record; `id` models `record['product']['id']` (the sku). -/
structure JumboProduct where
  id : Option ProductId
  payload : Nat
deriving DecidableEq

/-- Embeds `JumboGraphQLOptimizedScraper.save_products` (jumbo_scraper.py 281-312). -/
def JumboScraper.save_products : FileState (List JumboProduct) →
    List JumboProduct → FileState (List JumboProduct) :=
  mergeSave JumboProduct.id

/-- A Kruidvat product record with the two candidate id fields. -/
structure KruidvatProduct where
  pid : Option ProductId
  pcode : Option ProductId
  payload : Nat
deriving DecidableEq

/-- Embeds `item.get('product', {}).get('id') or item.get('product', {}).get('code')`
(kruidvat_scraper.py lines 588, 604). -/
def KruidvatProduct.externalId (p : KruidvatProduct) : Option ProductId :=
  match p.pid with
  | some i => some i
  | none => p.pcode

/-- Embeds `OptimizedKruidvatScraper.save_data` for `data_type == 'products'` and a
list argument (kruidvat_scraper.py lines 573-647). -/
def KruidvatScraper.save_data : FileState (List KruidvatProduct) →
    List KruidvatProduct → FileState (List KruidvatProduct) :=
  mergeSave KruidvatProduct.externalId

/-- The external ids stored in a persisted product file. -/
def storeIds {α : Type} (getId : α → Option ProductId)
    (file : FileState (List α)) : List ProductId :=
  (file.loadOr []).filterMap getId

/-! ## Retry loops

`JumboGraphQLOptimizedScraper.make_graphql_request` (jumbo_scraper.py 494-537)
and `AHScraper.make_request_with_retry` / `_handle_response` (ah_scraper.py
183-234).  An attempt script gives the outcome of each HTTP attempt. -/

/-- Outcome of a single HTTP attempt of the Jumbo GraphQL request. -/
inductive JAttempt where
  | okData            -- 200, parseable JSON, `data` present and no `errors`
  | okGraphqlErrors   -- 200, parseable JSON, GraphQL errors / missing data
  | okBadJson         -- 200, unparseable body
  | throttled         -- HTTP 429
  | httpError (code : Nat)  -- other non-200 status
  | raised            -- exception during the request
deriving DecidableEq

/-- Result of one `make_graphql_request` call: the returned success flag and
the deltas applied to `successful_requests` / `failed_requests`. -/
structure RequestOutcome where
  success : Bool
  succDelta : Nat
  failedDelta : Nat
deriving DecidableEq

/-- The `for attempt in range(self.max_retries)` body of
`make_graphql_request`: 200-success returns immediately (counting a success);
200 with GraphQL errors or bad JSON returns a failure (counting it); a 429
sleeps and continues to the next attempt; any other status returns a failure
without touching the counters; an exception continues.  Falling off the loop
counts one failure. -/
def jumboAttemptLoop : List JAttempt → RequestOutcome
  | [] => ⟨false, 0, 1⟩
  | a :: rest =>
    match a with
    | .okData => ⟨true, 1, 0⟩
    | .okGraphqlErrors => ⟨false, 0, 1⟩
    | .okBadJson => ⟨false, 0, 1⟩
    | .throttled => jumboAttemptLoop rest
    | .httpError _ => ⟨false, 0, 0⟩
    | .raised => jumboAttemptLoop rest

/-- Embeds `JumboGraphQLOptimizedScraper.make_graphql_request` driven by a script of
attempt outcomes; `maxRetries` is `self.max_retries` (3 in the source). -/
def JumboScraper.make_graphql_request (script : Nat → JAttempt)
    (maxRetries : Nat) : RequestOutcome :=
  jumboAttemptLoop ((List.range maxRetries).map script)

/-- Outcome of a single HTTP attempt of the AH request. -/
inductive AHAttempt where
  | okData (d : Nat)       -- 200 with parseable JSON; `d` abstracts the body
  | okBadJson              -- 200, unparseable body: `_handle_response` returns None
  | throttled              -- 429: sleep(5) then raise ClientError
  | authError (code : Nat) -- 401/403: raise ClientError
  | httpError (code : Nat) -- other status: raise ClientError
  | netError               -- aiohttp.ClientError / unexpected exception
  | timedOut               -- asyncio.TimeoutError
deriving DecidableEq

/-- The retry loop of `AHScraper.make_request_with_retry`: a 200 response
returns its (possibly None) parsed body; every raising outcome — 429, auth
errors, other statuses, network errors, timeouts — is retried, and re-raised
on the final attempt. -/
def ahAttemptLoop : List AHAttempt → Except Unit (Option Nat)
  | [] => .ok none
  | [a] =>
    match a with
    | .okData d => .ok (some d)
    | .okBadJson => .ok none
    | _ => .error ()
  | a :: rest =>
    match a with
    | .okData d => .ok (some d)
    | .okBadJson => .ok none
    | _ => ahAttemptLoop rest

/-- Embeds `AHScraper.make_request_with_retry` driven by an attempt script. -/
def AHScraper.make_request_with_retry (script : Nat → AHAttempt)
    (maxRetries : Nat) : Except Unit (Option Nat) :=
  ahAttemptLoop ((List.range maxRetries).map script)

/-! ## Job-control API (ah-scraper/scraper_api.py) -/

inductive ApiJobStatus where
  | queued
  | running
  | completed
  | failed
  | cancelled
deriving DecidableEq

structure ApiJob where
  job_id : Nat
  status : ApiJobStatus
  created_at : Nat
deriving DecidableEq

/-- Jobs counted against the concurrency cap in `start_scraping`
(scraper_api.py line 323): status `queued` or `running`. -/
def activeJobCount (jobs : List ApiJob) : Nat :=
  (jobs.filter (fun j =>
    decide (j.status = .queued ∨ j.status = .running))).length

/-- Embeds `POST /scrape` (`start_scraping`, scraper_api.py 315-350): reject with
HTTP 429 when the active-job count has reached `MAX_CONCURRENT_JOBS`,
otherwise register a new job with status queued. -/
def start_scraping (jobs : List ApiJob) (maxConcurrentJobs : Nat)
    (newId now : Nat) : Except Nat (List ApiJob × ApiJob) :=
  if maxConcurrentJobs ≤ activeJobCount jobs then .error 429
  else
    let job : ApiJob := ⟨newId, .queued, now⟩
    .ok (jobs ++ [job], job)

/-- Embeds `GET /jobs` (`list_jobs`, scraper_api.py 352-382): optional exact status
filter, stable sort by creation time newest first, truncation to `limit`. -/
def list_jobs (jobs : List ApiJob) (statusFilter : Option ApiJobStatus)
    (limit : Nat) : List ApiJob :=
  let js : List ApiJob := match statusFilter with
    | some s => jobs.filter (fun j => decide (j.status = s))
    | none => jobs
  (js.mergeSort (fun a b => decide (b.created_at ≤ a.created_at))).take limit

/-! ## Progress monitor (kruidvat-scraper/progress_monitor.py)

`update_status` / `update_progress` wrap their whole body — building the
record, `os.makedirs`, the file write, the formatted logging — in
`try: ... except Exception`.  The environment supplies the first error the
body would raise, if any; field values are abstracted as naturals. -/

structure StatusData where
  scraper_name : Nat
  statusValue : Nat
  message : Nat
deriving DecidableEq

/-- The body of `update_status` before the `except` clause. -/
def update_status_attempt (env : Option PyErr) (name statusValue msg : Nat) :
    Except PyErr StatusData :=
  match env with
  | some e => .error e
  | none => .ok ⟨name, statusValue, msg⟩

/-- Embeds `update_status` (progress_monitor.py 27-49): the `except Exception`
clause turns any raised `Exception` into a log line and a normal return
(`none` = no status file written). -/
def ProgressMonitor.update_status (env : Option PyErr)
    (name statusValue msg : Nat) : Except PyErr (Option StatusData) :=
  match update_status_attempt env name statusValue msg with
  | .ok d => .ok (some d)
  | .error e => if e.isException then .ok none else .error e

structure ProgressData where
  scraper_name : Nat
  kwargs : List (Nat × Nat)
deriving DecidableEq

/-- The body of `update_progress` before the `except` clause (record build,
directory creation, file write, formatted metric logging). -/
def update_progress_attempt (env : Option PyErr) (name : Nat)
    (kwargs : List (Nat × Nat)) : Except PyErr ProgressData :=
  match env with
  | some e => .error e
  | none => .ok ⟨name, kwargs⟩

/-- Embeds `update_progress` (progress_monitor.py 51-76). -/
def ProgressMonitor.update_progress (env : Option PyErr) (name : Nat)
    (kwargs : List (Nat × Nat)) : Except PyErr (Option ProgressData) :=
  match update_progress_attempt env name kwargs with
  | .ok d => .ok (some d)
  | .error e => if e.isException then .ok none else .error e

/-! ## Checkpoint loading -/

/-- The fields of the AH progress checkpoint consumed by `load_progress`. -/
structure AHProgressData where
  scraped_product_ids : List ProductId
  scraped_categories : List Nat
  total_scraped_items : Nat
deriving DecidableEq

/-- The body of `AHScraper.load_progress` (ah_scraper.py 151-162) before its
`except` clause: a missing file is skipped by the `os.path.exists` guard, a
corrupt file makes `json.load` raise.  The Bool records whether the
corruption warning was logged. -/
def ah_load_progress_attempt (f : FileState AHProgressData)
    (st : AHProgressData) : Except PyErr (AHProgressData × Bool) :=
  match f with
  | .missing => .ok (st, false)
  | .corrupt => .error .jsonDecodeError
  | .valid p => .ok (p, false)

/-- Embeds `AHScraper.load_progress`: `except json.JSONDecodeError` logs a warning
and keeps the fresh in-memory state. -/
def AHScraper.load_progress (f : FileState AHProgressData)
    (st : AHProgressData) : Except PyErr (AHProgressData × Bool) :=
  match ah_load_progress_attempt f st with
  | .error .jsonDecodeError => .ok (st, true)
  | r => r

/-- The fields of the Jumbo progress checkpoint consumed by `load_progress`. -/
structure JumboProgress where
  scraped_products : List ProductId
  total_scraped : Nat
  current_offset : Nat
  current_batch_size : Nat
deriving DecidableEq

/-- The body of `JumboGraphQLOptimizedScraper.load_progress` (jumbo_scraper.py
191-211) before its `except` clause; a saved batch size is restored only if it
is one of the valid sizes 30/50/100. -/
def jumbo_load_progress_attempt (f : FileState JumboProgress)
    (st : JumboProgress) : Except PyErr (JumboProgress × Bool) :=
  match f with
  | .missing => .ok (st, false)
  | .corrupt => .error .jsonDecodeError
  | .valid p =>
    .ok ({ scraped_products := p.scraped_products,
           total_scraped := p.total_scraped,
           current_offset := p.current_offset,
           current_batch_size :=
             if p.current_batch_size ∈ [30, 50, 100] then p.current_batch_size
             else st.current_batch_size }, false)

/-- Embeds `JumboGraphQLOptimizedScraper.load_progress`: the `except
json.JSONDecodeError` clause warns and resets `current_offset` to 0. -/
def JumboScraper.load_progress (f : FileState JumboProgress)
    (st : JumboProgress) : Except PyErr (JumboProgress × Bool) :=
  match jumbo_load_progress_attempt f st with
  | .error .jsonDecodeError => .ok ({ st with current_offset := 0 }, true)
  | r => r

/-! ## Per-category harvesting loops -/

/-- Embeds `if hasattr(self, 'max_products_limit') and self.max_products_limit: if
total >= limit` — a limit of `None` or `0` is inactive (Python falsiness). -/
def hitLimit (maxP : Option Nat) (total : Nat) : Bool :=
  match maxP with
  | some m => decide (0 < m ∧ m ≤ total)
  | none => false

/-- Result of one AH page fetch: `fail` covers a falsy response and the
`except` branch (both `break`), `page` a parsed product list. -/
inductive AHPage where
  | fail
  | page (ps : List AHProduct)

structure AHCatState where
  scraped : List ProductId
  total : Nat
  catProducts : List AHProduct
  page : Nat
  fetches : Nat
deriving DecidableEq

/-- The per-product loop of `AHScraper.scrape_category_products` (lines
330-342): count an item iff its id is truthy and unseen; after each count,
break out when the limit is reached. -/
def ahProcessItems (maxP : Option Nat) :
    List AHProduct → List ProductId → Nat → List AHProduct →
    List ProductId × Nat × List AHProduct
  | [], scraped, total, acc => (scraped, total, acc)
  | p :: ps, scraped, total, acc =>
    match p.webshopId with
    | none => ahProcessItems maxP ps scraped total acc
    | some i =>
      if i ∈ scraped then ahProcessItems maxP ps scraped total acc
      else
        if hitLimit maxP (total + 1) then (i :: scraped, total + 1, acc ++ [p])
        else ahProcessItems maxP ps (i :: scraped) (total + 1) (acc ++ [p])

def AH_PAGE_SIZE : Nat := 750

/-- The page loop of `AHScraper.scrape_category_products` (lines 292-358):
top-of-loop limit check; a failed or empty page breaks immediately; a short
page (fewer than the requested 750) is the last page. -/
def ahCatLoop (maxP : Option Nat) (script : Nat → AHPage) :
    Nat → AHCatState → AHCatState
  | 0, st => st
  | fuel + 1, st =>
    if hitLimit maxP st.total then st
    else
      let st1 : AHCatState := { st with fetches := st.fetches + 1 }
      match script st.fetches with
      | .fail => st1
      | .page ps =>
        if ps.isEmpty then st1
        else
          let r := ahProcessItems maxP ps st1.scraped st1.total st1.catProducts
          let st2 : AHCatState :=
            { st1 with scraped := r.1, total := r.2.1, catProducts := r.2.2 }
          if ps.length < AH_PAGE_SIZE then st2
          else ahCatLoop maxP script fuel { st2 with page := st2.page + 1 }

/-- Result of one Jumbo page fetch: `fail` is an unsuccessful or empty
GraphQL response, `page` a product list (possibly empty). -/
inductive JPage where
  | fail
  | page (ps : List JumboProduct)

structure JCatState where
  scraped : List ProductId
  total : Nat
  offset : Nat
  emptyStreak : Nat
  file : FileState (List JumboProduct)
  fetches : List Nat
  catTotal : Nat
deriving DecidableEq

/-- The per-product loop of `JumboGraphQLOptimizedScraper.scrape_category`
(lines 583-597): collect items with a truthy unseen id; no limit check here. -/
def jumboProcessItems :
    List JumboProduct → List ProductId → List JumboProduct × List ProductId
  | [], scraped => ([], scraped)
  | p :: ps, scraped =>
    match p.id with
    | none => jumboProcessItems ps scraped
    | some i =>
      if i ∈ scraped then jumboProcessItems ps scraped
      else
        let r := jumboProcessItems ps (i :: scraped)
        (p :: r.1, r.2)

def JUMBO_MAX_EMPTY_PAGES : Nat := 5

/-- The page loop of `JumboGraphQLOptimizedScraper.scrape_category` (lines
549-642): runs while fewer than 5 consecutive empty/failed pages; a failed or
empty fetch advances the offset by the batch size `B`; a non-empty page is
deduplicated, persisted via `save_products`, counted, checked against
`max_products` (after persisting), and advances the offset by the number of
items actually returned.  `fetches` records the offset of every page request
issued, in order. -/
def jumboCatLoop (maxP : Option Nat) (B : Nat) (script : Nat → JPage) :
    Nat → JCatState → JCatState
  | 0, st => st
  | fuel + 1, st =>
    if JUMBO_MAX_EMPTY_PAGES ≤ st.emptyStreak then st
    else
      let k := st.fetches.length
      let st1 : JCatState := { st with fetches := st.fetches ++ [st.offset] }
      match script k with
      | .fail =>
        jumboCatLoop maxP B script fuel
          { st1 with emptyStreak := st1.emptyStreak + 1, offset := st1.offset + B }
      | .page ps =>
        if ps.isEmpty then
          jumboCatLoop maxP B script fuel
            { st1 with emptyStreak := st1.emptyStreak + 1, offset := st1.offset + B }
        else
          let r := jumboProcessItems ps st1.scraped
          let st2 : JCatState :=
            { st1 with
              emptyStreak := 0
              scraped := r.2
              file := (if r.1.isEmpty then st1.file
                       else JumboScraper.save_products st1.file r.1)
              total := st1.total + r.1.length
              catTotal := st1.catTotal + r.1.length }
          if hitLimit maxP st2.total then st2
          else
            jumboCatLoop maxP B script fuel
              { st2 with offset := st2.offset +
                  (if 0 < ps.length then ps.length else B) }

/-- Result of one Kruidvat page fetch: falsy response, raised exception, or a
parsed result with the products and the reported `totalPages`. -/
inductive KPage where
  | noResponse
  | raised
  | page (ps : List KruidvatProduct) (totalPages : Nat)

structure KProcResult where
  detailed : List KruidvatProduct
  scraped : List ProductId
  total : Nat
  catTotal : Nat
  earlyReturn : Bool
deriving DecidableEq

/-- The per-product loop of `OptimizedKruidvatScraper.scrape_category_products`
(lines 521-540): a pre-check returning from the whole function when the limit
is already reached (discarding this page's collected items), then count items
with a truthy unseen id, breaking once the limit is reached. -/
def kvProcessItems (maxP : Option Nat) :
    List KruidvatProduct → List ProductId → Nat → Nat → KProcResult
  | [], scraped, total, catTotal => ⟨[], scraped, total, catTotal, false⟩
  | p :: ps, scraped, total, catTotal =>
    if hitLimit maxP total then ⟨[], scraped, total, catTotal, true⟩
    else
      match p.externalId with
      | none => kvProcessItems maxP ps scraped total catTotal
      | some i =>
        if i ∈ scraped then kvProcessItems maxP ps scraped total catTotal
        else
          if hitLimit maxP (total + 1) then
            ⟨[p], i :: scraped, total + 1, catTotal + 1, false⟩
          else
            let r := kvProcessItems maxP ps (i :: scraped) (total + 1) (catTotal + 1)
            ⟨p :: r.detailed, r.scraped, r.total, r.catTotal, r.earlyReturn⟩

structure KCatState where
  scraped : List ProductId
  total : Nat
  catTotal : Nat
  page : Nat
  emptyStreak : Nat
  file : FileState (List KruidvatProduct)
  fetches : Nat
deriving DecidableEq

def KV_MAX_EMPTY_PAGES : Nat := 3

/-- The page loop of `OptimizedKruidvatScraper.scrape_category_products`
(lines 465-571): runs while fewer than 3 consecutive empty pages; a falsy
response or an exception counts as an empty page; an empty page also breaks
when the reported pagination is exhausted; a non-empty page is processed,
persisted via `save_data`, and checked against the limit. -/
def kvCatLoop (maxP : Option Nat) (script : Nat → KPage) :
    Nat → KCatState → KCatState
  | 0, st => st
  | fuel + 1, st =>
    if KV_MAX_EMPTY_PAGES ≤ st.emptyStreak then st
    else
      let st1 : KCatState := { st with fetches := st.fetches + 1 }
      match script st.fetches with
      | .noResponse =>
        kvCatLoop maxP script fuel
          { st1 with emptyStreak := st1.emptyStreak + 1, page := st1.page + 1 }
      | .raised =>
        let st2 : KCatState := { st1 with emptyStreak := st1.emptyStreak + 1 }
        if KV_MAX_EMPTY_PAGES ≤ st2.emptyStreak then st2
        else kvCatLoop maxP script fuel { st2 with page := st2.page + 1 }
      | .page ps tp =>
        if ps.isEmpty then
          let st2 : KCatState := { st1 with emptyStreak := st1.emptyStreak + 1 }
          if tp ≤ st2.page ∧ 0 < tp then st2
          else kvCatLoop maxP script fuel { st2 with page := st2.page + 1 }
        else
          let st2 : KCatState := { st1 with emptyStreak := 0 }
          let r := kvProcessItems maxP ps st2.scraped st2.total st2.catTotal
          if r.earlyReturn then
            { st2 with scraped := r.scraped, total := r.total, catTotal := r.catTotal }
          else
            let st3 : KCatState :=
              { st2 with
                scraped := r.scraped
                total := r.total
                catTotal := r.catTotal
                file := (if r.detailed.isEmpty then st2.file
                         else KruidvatScraper.save_data st2.file r.detailed) }
            if !r.detailed.isEmpty && hitLimit maxP st3.total then st3
            else
              let st4 : KCatState := { st3 with page := st3.page + 1 }
              if 0 < tp ∧ tp ≤ st4.page then st4
              else kvCatLoop maxP script fuel st4

/-- A Plus product; `sku` models `product['PLP_Str']['SKU']`. -/
structure PlusProduct where
  sku : Option ProductId
  payload : Nat
deriving DecidableEq

/-- Result of one Plus page fetch: `get_products_ultra_fixed` returns a
product list with a has-more flag (its own exceptions yield `([], False)`);
`raised` covers exceptions in the loop body. -/
inductive PPage where
  | result (ps : List PlusProduct) (hasMore : Bool)
  | raised

structure PCatState where
  scraped : List ProductId
  total : Nat
  catTotal : Nat
  page : Nat
  emptyStreak : Nat
  fetches : Nat
deriving DecidableEq

/-- The per-product loop of
`PlusUltraFixedScraper.scrape_category_ultra_fixed` (lines 694-707). -/
def plusProcessItems (maxP : Option Nat) :
    List PlusProduct → List ProductId → Nat → Nat →
    List PlusProduct × List ProductId × Nat × Nat
  | [], scraped, total, catTotal => ([], scraped, total, catTotal)
  | p :: ps, scraped, total, catTotal =>
    match p.sku with
    | none => plusProcessItems maxP ps scraped total catTotal
    | some i =>
      if i ∈ scraped then plusProcessItems maxP ps scraped total catTotal
      else
        if hitLimit maxP (total + 1) then
          ([p], i :: scraped, total + 1, catTotal + 1)
        else
          let r := plusProcessItems maxP ps (i :: scraped) (total + 1) (catTotal + 1)
          (p :: r.1, r.2.1, r.2.2.1, r.2.2.2)

def PLUS_MAX_EMPTY_PAGES : Nat := 3

def PLUS_MAX_PAGES : Nat := 200

/-- The page loop of `PlusUltraFixedScraper.scrape_category_ultra_fixed`
(lines 656-765): runs while fewer than 3 consecutive empty pages and within
the page cap, with a limit pre-check per page; empty pages and exceptions
increment the streak; after processing, the loop stops on the limit or when
`has_more` is false.  (Persistence is as in the other scrapers and is not
tracked here.) -/
def plusCatLoop (maxP : Option Nat) (script : Nat → PPage) :
    Nat → PCatState → PCatState
  | 0, st => st
  | fuel + 1, st =>
    if ¬(st.emptyStreak < PLUS_MAX_EMPTY_PAGES ∧ st.page ≤ PLUS_MAX_PAGES) then st
    else if hitLimit maxP st.total then st
    else
      let st1 : PCatState := { st with fetches := st.fetches + 1 }
      match script st.fetches with
      | .raised =>
        plusCatLoop maxP script fuel
          { st1 with emptyStreak := st1.emptyStreak + 1, page := st1.page + 1 }
      | .result ps hasMore =>
        if ps.isEmpty then
          plusCatLoop maxP script fuel
            { st1 with emptyStreak := st1.emptyStreak + 1, page := st1.page + 1 }
        else
          let st2 : PCatState := { st1 with emptyStreak := 0 }
          let r := plusProcessItems maxP ps st2.scraped st2.total st2.catTotal
          let st3 : PCatState :=
            { st2 with scraped := r.2.1, total := r.2.2.1, catTotal := r.2.2.2 }
          if hitLimit maxP st3.total then st3
          else if hasMore = false then st3
          else plusCatLoop maxP script fuel { st3 with page := st3.page + 1 }

/-! ## Whole-run pipelines (completion short-circuit)

The run methods are modelled at the granularity of network operations: each
authentication, category-list fetch or page fetch counts as one request
operation (each maps to at least one HTTP request), so `requests = 0` holds
exactly when no network traffic is issued at all. -/

inductive RunStatus where
  | starting
  | running
  | completed
  | failed
  | interrupted
deriving DecidableEq

/-- The product count loaded from a prior results file on completed startup
(ah_scraper.py 109-116, jumbo_scraper.py 180-189): the length of the stored
list, or 0 when the file is missing or corrupt. -/
def priorCount {α : Type} : FileState (List α) → Nat
  | .valid l => l.length
  | _ => 0

/-- The offset advance the Jumbo page loop applies after the fetch with
sequence number `k`: the number of items actually returned for a non-empty
page, and the configured batch size for a failed or empty page
(jumbo_scraper.py lines 568, 577, 633). -/
def jumboAdvance (B : Nat) (script : Nat → JPage) (k : Nat) : Nat :=
  match script k with
  | .fail => B
  | .page [] => B
  | .page ps => ps.length

/-- Each consecutive pair of logged fetch offsets differs by the advance
function at the earlier fetch's sequence number. -/
def FetchPairs (A : Nat → Nat) (l : List Nat) : Prop :=
  ∀ i x y, l.get? i = some x → l.get? (i + 1) = some y → y = x + A i

/-- The current offset is the last logged fetch offset plus the advance at
that fetch's sequence number. -/
def FetchLastInv (A : Nat → Nat) (l : List Nat) (o : Nat) : Prop :=
  ∀ x, l.get? (l.length - 1) = some x → o = x + A (l.length - 1)

/-- Embeds `self.excluded_categories = {"20603": ...}` (ah_scraper.py 97-99). -/
def AH_EXCLUDED : List Nat := [20603]

/-- Embeds `categories_limit` truthiness check of ah_scraper.py line 280. -/
def catLimitHit (catLimit : Option Nat) (count : Nat) : Bool :=
  match catLimit with
  | some l => decide (0 < l ∧ l ≤ count)
  | none => false

/-- The category filter of `AHScraper.fetch_all_categories` (lines 268-283):
skip the excluded ids, keep the rest in order, and stop once the (truthy)
categories limit is reached. -/
def filterCategories (excluded : List Nat) (catLimit : Option Nat) :
    List Nat → Nat → List Nat
  | [], _ => []
  | c :: cs, count =>
    if c ∈ excluded then filterCategories excluded catLimit cs count
    else if catLimitHit catLimit (count + 1) then [c]
    else c :: filterCategories excluded catLimit cs (count + 1)

/-- Environment of one `AHScraper` process run. -/
structure AHEnv where
  completedFlagExists : Bool
  outputFile : FileState (List AHProduct)
  progressFile : FileState AHProgressData
  maxProducts : Option Nat
  categoriesLimit : Option Nat
  authData : Option Nat
  categoriesData : Option (List Nat)
  pages : Nat → Nat → AHPage
  fuel : Nat

/-- Embeds `AHScraper.__init__` (lines 105-118): when the completion flag exists,
report the product count of the prior results file (0 when missing or
corrupt); otherwise load the progress checkpoint. -/
def ahInitState (env : AHEnv) : AHProgressData × Bool :=
  if env.completedFlagExists then
    (⟨[], [], priorCount env.outputFile⟩, true)
  else
    match AHScraper.load_progress env.progressFile ⟨[], [], 0⟩ with
    | .ok (p, _) => (p, false)
    | .error _ => (⟨[], [], 0⟩, false)

structure AHCatalogState where
  scraped : List ProductId
  scrapedCats : List Nat
  total : Nat
  file : FileState (List AHProduct)
  requests : Nat

/-- Embeds `AHScraper.scrape_complete_catalog` (lines 395-458): per category — break
on the product limit, skip already-completed categories, otherwise run the
page loop, persist its products and mark the category done. -/
def ahCatalog (maxP : Option Nat) (pages : Nat → Nat → AHPage) (fuel : Nat) :
    List Nat → AHCatalogState → AHCatalogState
  | [], st => st
  | c :: cs, st =>
    if hitLimit maxP st.total then st
    else if c ∈ st.scrapedCats then ahCatalog maxP pages fuel cs st
    else
      let r := ahCatLoop maxP (pages c) fuel ⟨st.scraped, st.total, [], 0, 0⟩
      ahCatalog maxP pages fuel cs
        { scraped := r.scraped, scrapedCats := st.scrapedCats ++ [c],
          total := r.total,
          file := AHScraper.write_products st.file r.catProducts,
          requests := st.requests + r.fetches }

structure AHRunResult where
  status : RunStatus
  reportedTotal : Nat
  requests : Nat
  file : FileState (List AHProduct)
  flagWritten : Bool

/-- Embeds `AHScraper.scrape` (lines 460-533): the completion short-circuit reports
Completed with the prior count before any session or request is created;
otherwise authenticate, fetch categories, harvest, and write the completion
flag. -/
def AHScraper.scrape (env : AHEnv) : AHRunResult :=
  let init := ahInitState env
  if init.2 then
    { status := .completed, reportedTotal := init.1.total_scraped_items,
      requests := 0, file := env.outputFile, flagWritten := false }
  else
    match env.authData with
    | none =>
      { status := .failed, reportedTotal := init.1.total_scraped_items,
        requests := 1, file := env.outputFile, flagWritten := false }
    | some _ =>
      match env.categoriesData with
      | none =>
        { status := .failed, reportedTotal := init.1.total_scraped_items,
          requests := 2, file := env.outputFile, flagWritten := false }
      | some raw =>
        let cats := filterCategories AH_EXCLUDED env.categoriesLimit raw 0
        let r := ahCatalog env.maxProducts env.pages env.fuel cats
          ⟨init.1.scraped_product_ids, init.1.scraped_categories,
           init.1.total_scraped_items, env.outputFile, 2⟩
        { status := .completed, reportedTotal := r.total,
          requests := r.requests, file := r.file, flagWritten := true }

def JUMBO_OPTIMAL_BATCH : Nat := 100

/-- Environment of one `JumboGraphQLOptimizedScraper` process run. -/
structure JumboEnv where
  completedFlagExists : Bool
  productsFile : FileState (List JumboProduct)
  progressFile : FileState JumboProgress
  maxProducts : Option Nat
  categoriesData : Option Nat
  bbqPages : Nat → JPage
  fuel : Nat

/-- Embeds `JumboGraphQLOptimizedScraper.__init__` (lines 160-167): when the
completion flag exists, `load_existing_data` counts the prior results file;
otherwise the progress checkpoint is loaded. -/
def jumboInitState (env : JumboEnv) : JumboProgress × Bool :=
  if env.completedFlagExists then
    (⟨[], priorCount env.productsFile, 0, JUMBO_OPTIMAL_BATCH⟩, true)
  else
    match JumboScraper.load_progress env.progressFile ⟨[], 0, 0, JUMBO_OPTIMAL_BATCH⟩ with
    | .ok (p, _) => (p, false)
    | .error _ => (⟨[], 0, 0, JUMBO_OPTIMAL_BATCH⟩, false)

structure JumboRunResult where
  status : RunStatus
  reportedTotal : Nat
  requests : Nat
  file : FileState (List JumboProduct)
  flagWritten : Bool

/-- Embeds `JumboGraphQLOptimizedScraper.run` (lines 644-734): the completion
short-circuit reports Completed with the loaded count before the HTTP session
is created; otherwise fetch the category list (one request), deep-scrape the
BBQ category, and write the completion flag.  The category page loop starts
at offset 0 (jumbo_scraper.py line 555). -/
def JumboScraper.run (env : JumboEnv) : JumboRunResult :=
  let init := jumboInitState env
  if init.2 then
    { status := .completed, reportedTotal := init.1.total_scraped,
      requests := 0, file := env.productsFile, flagWritten := false }
  else
    match env.categoriesData with
    | none =>
      { status := .failed, reportedTotal := init.1.total_scraped,
        requests := 1, file := env.productsFile, flagWritten := false }
    | some _ =>
      let r := jumboCatLoop env.maxProducts init.1.current_batch_size
        env.bbqPages env.fuel
        ⟨init.1.scraped_products, init.1.total_scraped, 0, 0,
         env.productsFile, [], 0⟩
      { status := .completed, reportedTotal := r.total,
        requests := 1 + r.fetches.length, file := r.file, flagWritten := true }

end Omfietser

namespace Omfietser

/-! ### Lemmas about the merge -/

theorem dedupNew_fst_spec {α : Type} (getId : α → Option ProductId) :
    ∀ (ps : List α) (ids : List ProductId),
      ((dedupNew getId ps ids).1.filterMap getId).Nodup ∧
      ∀ i ∈ (dedupNew getId ps ids).1.filterMap getId, i ∉ ids := by
  intro ps
  induction ps with
  | nil => intro ids; simp [dedupNew]
  | cons p ps ih =>
    intro ids
    simp only [dedupNew]
    cases hid : getId p with
    | none =>
      refine ⟨(ih ids).1, (ih ids).2⟩
    | some i =>
      by_cases hmem : i ∈ ids
      · simpa [hmem] using ih ids
      · simp only [hmem, if_false]
        have h := ih (i :: ids)
        constructor
        · simp only [List.filterMap_cons, hid]
          refine List.Nodup.cons ?_ h.1
          intro hin
          exact (h.2 i hin) (List.mem_cons_self i ids)
        · intro j hj
          simp only [List.filterMap_cons, hid, List.mem_cons] at hj
          rcases hj with rfl | hj
          · exact hmem
          · have := h.2 j hj
            intro hcon
            exact this (List.mem_cons_of_mem _ hcon)

theorem mergeSave_nodup {α : Type} (getId : α → Option ProductId)
    (file : FileState (List α)) (items : List α)
    (h : (storeIds getId file).Nodup) :
    (storeIds getId (mergeSave getId file items)).Nodup := by
  by_cases he : items.isEmpty
  · simpa [mergeSave, he] using h
  · have hspec := dedupNew_fst_spec getId items ((file.loadOr []).filterMap getId)
    have hgoal : storeIds getId (mergeSave getId file items)
        = (file.loadOr []).filterMap getId ++
          ((dedupNew getId items ((file.loadOr []).filterMap getId)).1.filterMap getId) := by
      simp [mergeSave, he, storeIds, FileState.loadOr]
    rw [hgoal]
    refine List.Nodup.append ?_ hspec.1 ?_
    · simpa [storeIds] using h
    · intro a ha hb
      exact hspec.2 a hb ha

theorem foldl_mergeSave_nodup {α : Type} (getId : α → Option ProductId)
    (batches : List (List α)) (file : FileState (List α))
    (h : (storeIds getId file).Nodup) :
    (storeIds getId (batches.foldl (mergeSave getId) file)).Nodup := by
  induction batches generalizing file with
  | nil => simpa using h
  | cons b bs ih =>
    simpa using ih (mergeSave getId file b) (mergeSave_nodup getId file b h)

theorem storeIds_missing {α : Type} (getId : α → Option ProductId) :
    (storeIds getId (.missing : FileState (List α))).Nodup := by
  simp [storeIds, FileState.loadOr]

/-- C1.  For every sequence of persist operations in a job run (including
interrupted-and-resumed runs, whose persisted file is just the fold of all
batches saved so far), the persisted product file of each scraper never
contains two product records with the same external id: each save merges new
items against the ids already present and appends only items whose id is
absent.  The statement covers every reachable file state, since any prefix of
the batch sequence is itself such a sequence. -/
theorem dedup_invariant
    (ahBatches : List (List AHProduct))
    (jumboBatches : List (List JumboProduct))
    (kvBatches : List (List KruidvatProduct)) :
    (storeIds AHProduct.webshopId
      (ahBatches.foldl AHScraper.write_products .missing)).Nodup ∧
    (storeIds JumboProduct.id
      (jumboBatches.foldl JumboScraper.save_products .missing)).Nodup ∧
    (storeIds KruidvatProduct.externalId
      (kvBatches.foldl KruidvatScraper.save_data .missing)).Nodup := by
  refine ⟨?_, ?_, ?_⟩ <;>
    exact foldl_mergeSave_nodup _ _ _ (storeIds_missing _)

/-- C7.  A CreateJob request (`POST /scrape`) arriving when the number of
queued-or-running jobs already equals or exceeds `MAX_CONCURRENT_JOBS` is
rejected with HTTP 429 and registers no job; below the cap it registers and
returns a job in queued status. -/
theorem create_job_capacity (jobs : List ApiJob) (cap newId now : Nat) :
    (cap ≤ activeJobCount jobs →
      start_scraping jobs cap newId now = .error 429) ∧
    (activeJobCount jobs < cap →
      start_scraping jobs cap newId now =
        .ok (jobs ++ [⟨newId, .queued, now⟩], ⟨newId, .queued, now⟩)) := by
  constructor
  · intro h
    simp [start_scraping, h]
  · intro h
    have h2 : ¬ cap ≤ activeJobCount jobs := Nat.not_le.mpr h
    simp [start_scraping, h2]

/-- Witness for C7: with the default cap of 3 and three active jobs the
request is rejected; with one terminal job it is accepted as queued. -/
theorem create_job_capacity_witness :
    start_scraping [⟨1, .running, 0⟩, ⟨2, .queued, 1⟩, ⟨3, .running, 2⟩] 3 4 10
      = .error 429 ∧
    start_scraping [⟨1, .completed, 0⟩] 3 4 10
      = .ok ([⟨1, .completed, 0⟩, ⟨4, .queued, 10⟩], ⟨4, .queued, 10⟩) :=
  ⟨(create_job_capacity [⟨1, .running, 0⟩, ⟨2, .queued, 1⟩, ⟨3, .running, 2⟩]
      3 4 10).1 (by decide),
   (create_job_capacity [⟨1, .completed, 0⟩] 3 4 10).2 (by decide)⟩

/-- C10.  `update_status` and `update_progress` catch every `Exception`
raised by their body (record construction, directory creation, file write,
formatted logging) and return normally; the only uncaught class in the model
is `KeyboardInterrupt`, which derives from `BaseException`, not
`Exception`. -/
theorem monitor_never_raises (envS envP : Option PyErr)
    (name sv msg : Nat) (kwargs : List (Nat × Nat))
    (hS : envS ≠ some PyErr.keyboardInterrupt)
    (hP : envP ≠ some PyErr.keyboardInterrupt) :
    (∃ r, ProgressMonitor.update_status envS name sv msg = .ok r) ∧
    (∃ r, ProgressMonitor.update_progress envP name kwargs = .ok r) := by
  constructor
  · cases envS with
    | none => exact ⟨some ⟨name, sv, msg⟩, rfl⟩
    | some e =>
      cases e <;>
        first
        | exact ⟨none, rfl⟩
        | exact absurd rfl hS
  · cases envP with
    | none => exact ⟨some ⟨name, kwargs⟩, rfl⟩
    | some e =>
      cases e <;>
        first
        | exact ⟨none, rfl⟩
        | exact absurd rfl hP

/-- Witness for C10: an unwritable status file (`OSError`) and a
non-serializable kwarg (`TypeError`) are both swallowed. -/
theorem monitor_never_raises_witness :
    (∃ r, ProgressMonitor.update_status (some .osError) 1 2 3 = .ok r) ∧
    (∃ r, ProgressMonitor.update_progress (some .typeError) 1 [(4, 5)] = .ok r) :=
  monitor_never_raises (some .osError) (some .typeError) 1 2 3 [(4, 5)]
    (by decide) (by decide)

/-- C8.  Loading a progress checkpoint never raises: a missing file is
skipped, a corrupt file is caught by `except json.JSONDecodeError` with a
warning and leaves the fresh in-memory state (Jumbo additionally resets its
offset to 0, which is its fresh value); the product-store writers likewise
treat a corrupt existing file exactly as a missing one. -/
theorem corrupt_state_recovered (fa : FileState AHProgressData)
    (fj : FileState JumboProgress) (sta : AHProgressData) (stj : JumboProgress) :
    (∃ r, AHScraper.load_progress fa sta = .ok r) ∧
    AHScraper.load_progress .corrupt sta = .ok (sta, true) ∧
    AHScraper.load_progress .missing sta = .ok (sta, false) ∧
    (∃ r, JumboScraper.load_progress fj stj = .ok r) ∧
    JumboScraper.load_progress .corrupt stj
      = .ok ({ stj with current_offset := 0 }, true) ∧
    JumboScraper.load_progress .missing stj = .ok (stj, false) ∧
    (∀ items : List AHProduct,
      storeIds AHProduct.webshopId (AHScraper.write_products .corrupt items)
        = storeIds AHProduct.webshopId (AHScraper.write_products .missing items)) := by
  refine ⟨?_, rfl, rfl, ?_, rfl, rfl, ?_⟩
  · cases fa <;> exact ⟨_, rfl⟩
  · cases fj <;> exact ⟨_, rfl⟩
  · intro items
    cases items <;> rfl

/-- C4 counterexample.  Throttling responses DO count against
`maxRetries` exhaustion exactly the way hard failures do: with the source's
`max_retries = 3`, three consecutive 429 responses exhaust the Jumbo retry
loop and are then counted as one hard failure — the very same outcome as
three consecutive exceptions — and in the AH scraper three consecutive 429s
end in the exception being re-raised, again identical to hard failures. -/
theorem throttling_counts_toward_exhaustion :
    JumboScraper.make_graphql_request (fun _ => .throttled) 3
      = ⟨false, 0, 1⟩ ∧
    JumboScraper.make_graphql_request (fun _ => .raised) 3
      = ⟨false, 0, 1⟩ ∧
    AHScraper.make_request_with_retry (fun _ => .throttled) 3 = .error () ∧
    AHScraper.make_request_with_retry (fun _ => .netError) 3 = .error () := by
  exact ⟨rfl, rfl, rfl, rfl⟩

/-- C4 amended.  A throttled attempt is waited out and retried and is not
itself counted as a hard failure: a throttled-then-successful request leaves
`failed_requests` unchanged (Jumbo) and still returns the data (AH); other
HTTP error statuses are not retried at all by the Jumbo request (returned as
failure immediately, without touching the counters).  However, throttled
attempts consume attempts from the same `maxRetries` budget as hard
failures: a run of only-throttled attempts behaves exactly like a run of
only-exception attempts. -/
theorem retry_classification_amended (script : Nat → JAttempt)
    (ascript : Nat → AHAttempt) (d : Nat) :
    (script 0 = .throttled → script 1 = .okData →
      JumboScraper.make_graphql_request script 3 = ⟨true, 1, 0⟩) ∧
    (∀ c n, script 0 = .httpError c →
      JumboScraper.make_graphql_request script (n + 1) = ⟨false, 0, 0⟩) ∧
    (∀ n, JumboScraper.make_graphql_request (fun _ => .throttled) n =
          JumboScraper.make_graphql_request (fun _ => .raised) n) ∧
    (ascript 0 = .throttled → ascript 1 = .okData d →
      AHScraper.make_request_with_retry ascript 3 = .ok (some d)) := by
  refine ⟨?_, ?_, ?_, ?_⟩
  · intro h0 h1
    have hm : (List.range 3).map script = [script 0, script 1, script 2] := rfl
    rw [JumboScraper.make_graphql_request, hm, h0, h1]
    rfl
  · intro c n h0
    rw [JumboScraper.make_graphql_request, List.range_succ_eq_map,
      List.map_cons, h0]
    rfl
  · intro n
    have hrep : ∀ a : JAttempt,
        (List.range n).map (fun _ => a) = List.replicate n a := by
      intro a
      rw [List.map_const', List.length_range]
    have hloop : ∀ m, jumboAttemptLoop (List.replicate m .throttled)
        = jumboAttemptLoop (List.replicate m .raised) := by
      intro m
      induction m with
      | zero => rfl
      | succ p ih => simpa [List.replicate, jumboAttemptLoop] using ih
    rw [JumboScraper.make_graphql_request, JumboScraper.make_graphql_request,
      hrep, hrep, hloop]
  · intro h0 h1
    have hm : (List.range 3).map ascript = [ascript 0, ascript 1, ascript 2] := rfl
    rw [AHScraper.make_request_with_retry, hm, h0, h1]
    rfl

/-- Witness for C4 amended: one throttled attempt followed by a success. -/
theorem retry_classification_amended_witness :
    JumboScraper.make_graphql_request
      (fun k => if k = 0 then .throttled else .okData) 3 = ⟨true, 1, 0⟩ ∧
    JumboScraper.make_graphql_request
      (fun k => if k = 0 then .httpError 404 else .okData) 3 = ⟨false, 0, 0⟩ ∧
    AHScraper.make_request_with_retry
      (fun k => if k = 0 then .throttled else .okData 7) 3 = .ok (some 7) := by
  have h := retry_classification_amended
    (fun k => if k = 0 then .throttled else .okData)
    (fun k => if k = 0 then .throttled else .okData 7) 7
  have h2 := retry_classification_amended
    (fun k => if k = 0 then .httpError 404 else .okData)
    (fun k => if k = 0 then .throttled else .okData 7) 7
  exact ⟨h.1 rfl rfl, h2.2.1 404 2 rfl, h.2.2.2 rfl rfl⟩

/-- C5 counterexample.  The Jumbo per-category loop tolerates 5
consecutive empty pages, not 3: on a script that returns only empty pages it
issues 5 page fetches before declaring the category done (after 3 consecutive
empty pages it is still fetching), so the empty-page tolerance threshold is
not 3 in every scraper's per-category loop. -/
theorem empty_page_tolerance_counterexample :
    (jumboCatLoop none 100 (fun _ => .page []) 10
      ⟨[], 0, 0, 0, .missing, [], 0⟩).fetches.length = 5 := by
  decide

/-- C5 amended.  On a category whose pages come back empty, the Kruidvat
and Plus per-category loops stop after exactly 3 consecutive empty fetches,
the Jumbo loop after exactly 5, and the AH loop breaks on the first empty
page — for any remaining fuel beyond those bounds. -/
theorem empty_page_thresholds (k : Nat) :
    (jumboCatLoop none 100 (fun _ => .page []) (k + 6)
      ⟨[], 0, 0, 0, .missing, [], 0⟩).fetches.length = 5 ∧
    (kvCatLoop none (fun _ => .page [] 0) (k + 4)
      ⟨[], 0, 0, 0, 0, .missing, 0⟩).fetches = 3 ∧
    (plusCatLoop none (fun _ => .result [] false) (k + 4)
      ⟨[], 0, 0, 1, 0, 0⟩).fetches = 3 ∧
    (ahCatLoop none (fun _ => .page []) (k + 2)
      ⟨[], 0, [], 0, 0⟩).fetches = 1 := by
  refine ⟨rfl, rfl, rfl, rfl⟩

theorem list_jobs_core (js : List ApiJob) (limit : Nat) :
    ((js.mergeSort (fun a b => decide (b.created_at ≤ a.created_at))).take
      limit).length ≤ limit ∧
    ((js.mergeSort (fun a b => decide (b.created_at ≤ a.created_at))).take
      limit).Pairwise (fun a b => b.created_at ≤ a.created_at) ∧
    ∀ j ∈ (js.mergeSort (fun a b => decide (b.created_at ≤ a.created_at))).take
      limit, j ∈ js := by
  refine ⟨?_, ?_, ?_⟩
  · rw [List.length_take]
    exact Nat.min_le_left _ _
  · have hsorted := @List.sorted_mergeSort ApiJob
      (fun a b : ApiJob => decide (b.created_at ≤ a.created_at))
      (fun a b c hab hbc => by
        simp only [decide_eq_true_eq] at hab hbc ⊢
        omega)
      (fun a b => by
        simp only [Bool.or_eq_true, decide_eq_true_eq]
        omega)
      js
    have hp := List.Pairwise.sublist (List.take_sublist limit _) hsorted
    exact hp.imp (fun h => of_decide_eq_true h)
  · intro j hj
    have h1 : j ∈ js.mergeSort (fun a b => decide (b.created_at ≤ a.created_at)) :=
      (List.take_sublist _ _).subset hj
    exact (List.mergeSort_perm js _).subset h1

/-- C9.  `GET /jobs` returns at most `limit` summaries, sorted by
creation time newest first (descending `created_at`), drawn from the
registry, and — when a status filter is supplied — containing only jobs with
exactly that status. -/
theorem list_jobs_spec (jobs : List ApiJob) (statusFilter : Option ApiJobStatus)
    (limit : Nat) :
    (list_jobs jobs statusFilter limit).length ≤ limit ∧
    (list_jobs jobs statusFilter limit).Pairwise
      (fun a b => b.created_at ≤ a.created_at) ∧
    (∀ s, statusFilter = some s →
      ∀ j ∈ list_jobs jobs statusFilter limit, j.status = s) ∧
    (∀ j ∈ list_jobs jobs statusFilter limit, j ∈ jobs) := by
  cases statusFilter with
  | none =>
    have hc := list_jobs_core jobs limit
    refine ⟨hc.1, hc.2.1, ?_, hc.2.2⟩
    intro s hs
    exact absurd hs (by simp)
  | some s =>
    have hc := list_jobs_core (jobs.filter (fun j => decide (j.status = s))) limit
    refine ⟨hc.1, hc.2.1, ?_, ?_⟩
    · intro t ht j hj
      have hmem := hc.2.2 j hj
      have := (List.mem_filter.mp hmem).2
      have hts : t = s := by
        injection ht with hv
        exact hv.symm
      rw [hts]
      exact of_decide_eq_true this
    · intro j hj
      exact (List.mem_filter.mp (hc.2.2 j hj)).1

/-- Witness for C9: a three-job registry, filtered to completed jobs with
limit 2. -/
theorem list_jobs_spec_witness :
    (list_jobs [⟨1, .completed, 5⟩, ⟨2, .running, 7⟩, ⟨3, .completed, 9⟩]
      (some .completed) 2).length ≤ 2 ∧
    (∀ j ∈ list_jobs [⟨1, .completed, 5⟩, ⟨2, .running, 7⟩, ⟨3, .completed, 9⟩]
      (some .completed) 2, j.status = ApiJobStatus.completed) :=
  ⟨(list_jobs_spec [⟨1, .completed, 5⟩, ⟨2, .running, 7⟩, ⟨3, .completed, 9⟩]
      (some .completed) 2).1,
   (list_jobs_spec [⟨1, .completed, 5⟩, ⟨2, .running, 7⟩, ⟨3, .completed, 9⟩]
      (some .completed) 2).2.2.1 .completed rfl⟩

/-- C3.  When the completion-marker file exists at startup, both run
pipelines report Completed with the product count loaded from the prior
results file and return with zero network requests issued — before any
authentication, category fetch or page request. -/
theorem completion_short_circuit (aenv : AHEnv) (jenv : JumboEnv)
    (ha : aenv.completedFlagExists = true)
    (hj : jenv.completedFlagExists = true) :
    AHScraper.scrape aenv =
      { status := .completed, reportedTotal := priorCount aenv.outputFile,
        requests := 0, file := aenv.outputFile, flagWritten := false } ∧
    JumboScraper.run jenv =
      { status := .completed, reportedTotal := priorCount jenv.productsFile,
        requests := 0, file := jenv.productsFile, flagWritten := false } := by
  constructor
  · simp [AHScraper.scrape, ahInitState, ha]
  · simp [JumboScraper.run, jumboInitState, hj]

/-- Witness for C3: completed-flag environments with 2 (AH) and 1 (Jumbo)
prior products. -/
theorem completion_short_circuit_witness :
    (AHScraper.scrape ⟨true, .valid [⟨some 11, 0⟩, ⟨some 12, 0⟩], .missing,
        none, none, none, none, fun _ _ => .fail, 3⟩).requests = 0 ∧
    (AHScraper.scrape ⟨true, .valid [⟨some 11, 0⟩, ⟨some 12, 0⟩], .missing,
        none, none, none, none, fun _ _ => .fail, 3⟩).reportedTotal = 2 ∧
    (JumboScraper.run ⟨true, .valid [⟨some 21, 0⟩], .missing, none, none,
        fun _ => .fail, 3⟩).requests = 0 ∧
    (JumboScraper.run ⟨true, .valid [⟨some 21, 0⟩], .missing, none, none,
        fun _ => .fail, 3⟩).status = .completed := by
  have h := completion_short_circuit
    ⟨true, .valid [⟨some 11, 0⟩, ⟨some 12, 0⟩], .missing,
      none, none, none, none, fun _ _ => .fail, 3⟩
    ⟨true, .valid [⟨some 21, 0⟩], .missing, none, none, fun _ => .fail, 3⟩
    rfl rfl
  refine ⟨?_, ?_, ?_, ?_⟩
  · rw [h.1]
  · rw [h.1]
    rfl
  · rw [h.2]
  · rw [h.2]

theorem hitLimit_false_lt {M t : Nat} (hM : 0 < M)
    (h : hitLimit (some M) t = false) : t < M := by
  simp only [hitLimit, decide_eq_false_iff_not, not_and, not_le] at h
  exact h hM

theorem hitLimit_of_not {M t : Nat} (h : ¬ hitLimit (some M) t = true) :
    hitLimit (some M) t = false := by
  simpa using h

theorem ahProcessItems_total_le (M : Nat) (hM : 0 < M) :
    ∀ (ps : List AHProduct) (scraped : List ProductId) (total : Nat)
      (acc : List AHProduct), total < M →
      (ahProcessItems (some M) ps scraped total acc).2.1 ≤ M := by
  intro ps
  induction ps with
  | nil =>
    intro scraped total acc h
    exact Nat.le_of_lt h
  | cons p ps ih =>
    intro scraped total acc h
    rw [ahProcessItems]
    cases hpw : p.webshopId with
    | none => exact ih _ _ _ h
    | some i =>
      dsimp only
      by_cases hmem : i ∈ scraped
      · rw [if_pos hmem]
        exact ih _ _ _ h
      · rw [if_neg hmem]
        by_cases hl : hitLimit (some M) (total + 1) = true
        · rw [if_pos hl]
          exact h
        · rw [if_neg hl]
          exact ih _ _ _ (hitLimit_false_lt hM (hitLimit_of_not hl))

theorem kvProcessItems_total_le (M : Nat) (hM : 0 < M) :
    ∀ (ps : List KruidvatProduct) (scraped : List ProductId)
      (total catTotal : Nat), total ≤ M →
      (kvProcessItems (some M) ps scraped total catTotal).total ≤ M := by
  intro ps
  induction ps with
  | nil =>
    intro scraped total catTotal h
    exact h
  | cons p ps ih =>
    intro scraped total catTotal h
    rw [kvProcessItems]
    by_cases hpre : hitLimit (some M) total = true
    · rw [if_pos hpre]
      exact h
    · rw [if_neg hpre]
      have hlt : total < M := hitLimit_false_lt hM (hitLimit_of_not hpre)
      cases hpw : p.externalId with
      | none => exact ih _ _ _ h
      | some i =>
        dsimp only
        by_cases hmem : i ∈ scraped
        · rw [if_pos hmem]
          exact ih _ _ _ h
        · rw [if_neg hmem]
          by_cases hl : hitLimit (some M) (total + 1) = true
          · rw [if_pos hl]
            exact hlt
          · rw [if_neg hl]
            exact ih _ _ _ (Nat.le_of_lt (hitLimit_false_lt hM (hitLimit_of_not hl)))

theorem plusProcessItems_total_le (M : Nat) (hM : 0 < M) :
    ∀ (ps : List PlusProduct) (scraped : List ProductId)
      (total catTotal : Nat), total < M →
      (plusProcessItems (some M) ps scraped total catTotal).2.2.1 ≤ M := by
  intro ps
  induction ps with
  | nil =>
    intro scraped total catTotal h
    exact Nat.le_of_lt h
  | cons p ps ih =>
    intro scraped total catTotal h
    rw [plusProcessItems]
    cases hpw : p.sku with
    | none => exact ih _ _ _ h
    | some i =>
      dsimp only
      by_cases hmem : i ∈ scraped
      · rw [if_pos hmem]
        exact ih _ _ _ h
      · rw [if_neg hmem]
        by_cases hl : hitLimit (some M) (total + 1) = true
        · rw [if_pos hl]
          exact h
        · rw [if_neg hl]
          exact ih _ _ _ (hitLimit_false_lt hM (hitLimit_of_not hl))

theorem jumboProcessItems_length_le :
    ∀ (ps : List JumboProduct) (scraped : List ProductId),
      (jumboProcessItems ps scraped).1.length ≤ ps.length := by
  intro ps
  induction ps with
  | nil =>
    intro scraped
    exact Nat.le_refl 0
  | cons p ps ih =>
    intro scraped
    rw [jumboProcessItems]
    cases p.id with
    | none => exact Nat.le_succ_of_le (ih _)
    | some i =>
      dsimp only
      by_cases hmem : i ∈ scraped
      · rw [if_pos hmem]
        exact Nat.le_succ_of_le (ih _)
      · rw [if_neg hmem]
        exact Nat.succ_le_succ (ih _)

theorem ahCatLoop_total_le (M : Nat) (hM : 0 < M) (script : Nat → AHPage) :
    ∀ (fuel : Nat) (st : AHCatState), st.total ≤ M →
      (ahCatLoop (some M) script fuel st).total ≤ M := by
  intro fuel
  induction fuel with
  | zero =>
    intro st h
    exact h
  | succ n ih =>
    intro st h
    rw [ahCatLoop]
    by_cases hlim : hitLimit (some M) st.total = true
    · rw [if_pos hlim]
      exact h
    · rw [if_neg hlim]
      have hlt : st.total < M := hitLimit_false_lt hM (hitLimit_of_not hlim)
      dsimp only
      cases script st.fetches with
      | fail => exact h
      | page ps =>
        dsimp only
        by_cases hemp : ps.isEmpty = true
        · rw [if_pos hemp]
          exact h
        · rw [if_neg hemp]
          have hr := ahProcessItems_total_le M hM ps st.scraped st.total
            st.catProducts hlt
          by_cases hshort : ps.length < AH_PAGE_SIZE
          · rw [if_pos hshort]
            exact hr
          · rw [if_neg hshort]
            exact ih _ hr

theorem kvCatLoop_total_le (M : Nat) (hM : 0 < M) (script : Nat → KPage) :
    ∀ (fuel : Nat) (st : KCatState), st.total ≤ M →
      (kvCatLoop (some M) script fuel st).total ≤ M := by
  intro fuel
  induction fuel with
  | zero =>
    intro st h
    exact h
  | succ n ih =>
    intro st h
    rw [kvCatLoop]
    by_cases hstreak : KV_MAX_EMPTY_PAGES ≤ st.emptyStreak
    · rw [if_pos hstreak]
      exact h
    · rw [if_neg hstreak]
      dsimp only
      cases script st.fetches with
      | noResponse => exact ih _ h
      | raised =>
        dsimp only
        by_cases hs2 : KV_MAX_EMPTY_PAGES ≤ st.emptyStreak + 1
        · rw [if_pos hs2]
          exact h
        · rw [if_neg hs2]
          exact ih _ h
      | page ps tp =>
        dsimp only
        by_cases hemp : ps.isEmpty = true
        · rw [if_pos hemp]
          by_cases hpag : tp ≤ st.page ∧ 0 < tp
          · rw [if_pos hpag]
            exact h
          · rw [if_neg hpag]
            exact ih _ h
        · rw [if_neg hemp]
          have hr := kvProcessItems_total_le M hM ps st.scraped st.total
            st.catTotal h
          by_cases hearly : (kvProcessItems (some M) ps st.scraped st.total
              st.catTotal).earlyReturn = true
          · rw [if_pos hearly]
            exact hr
          · rw [if_neg hearly]
            by_cases hbrk : (!(kvProcessItems (some M) ps st.scraped st.total
                st.catTotal).detailed.isEmpty
                && hitLimit (some M) (kvProcessItems (some M) ps st.scraped
                  st.total st.catTotal).total) = true
            · rw [if_pos hbrk]
              exact hr
            · rw [if_neg hbrk]
              by_cases hpag : 0 < tp ∧ tp ≤ st.page + 1
              · rw [if_pos hpag]
                exact hr
              · rw [if_neg hpag]
                exact ih _ hr

theorem plusCatLoop_total_le (M : Nat) (hM : 0 < M) (script : Nat → PPage) :
    ∀ (fuel : Nat) (st : PCatState), st.total ≤ M →
      (plusCatLoop (some M) script fuel st).total ≤ M := by
  intro fuel
  induction fuel with
  | zero =>
    intro st h
    exact h
  | succ n ih =>
    intro st h
    rw [plusCatLoop]
    by_cases hcond : ¬(st.emptyStreak < PLUS_MAX_EMPTY_PAGES ∧
        st.page ≤ PLUS_MAX_PAGES)
    · rw [if_pos hcond]
      exact h
    · rw [if_neg hcond]
      by_cases hlim : hitLimit (some M) st.total = true
      · rw [if_pos hlim]
        exact h
      · rw [if_neg hlim]
        have hlt : st.total < M := hitLimit_false_lt hM (hitLimit_of_not hlim)
        dsimp only
        cases script st.fetches with
        | raised => exact ih _ h
        | result ps hasMore =>
          dsimp only
          by_cases hemp : ps.isEmpty = true
          · rw [if_pos hemp]
            exact ih _ h
          · rw [if_neg hemp]
            have hr := plusProcessItems_total_le M hM ps st.scraped st.total
              st.catTotal hlt
            by_cases hl2 : hitLimit (some M) (plusProcessItems (some M) ps
                st.scraped st.total st.catTotal).2.2.1 = true
            · rw [if_pos hl2]
              exact hr
            · rw [if_neg hl2]
              by_cases hmore : hasMore = false
              · rw [if_pos hmore]
                exact hr
              · rw [if_neg hmore]
                exact ih _ hr

theorem jumboCatLoop_total_lt (M L B : Nat) (hM : 0 < M) (script : Nat → JPage)
    (hL : ∀ k ps, script k = JPage.page ps → ps.length ≤ L) :
    ∀ (fuel : Nat) (st : JCatState), st.total < M →
      (jumboCatLoop (some M) B script fuel st).total < M + L := by
  intro fuel
  induction fuel with
  | zero =>
    intro st h
    exact Nat.lt_of_lt_of_le h (Nat.le_add_right M L)
  | succ n ih =>
    intro st h
    rw [jumboCatLoop]
    by_cases hstreak : JUMBO_MAX_EMPTY_PAGES ≤ st.emptyStreak
    · rw [if_pos hstreak]
      exact Nat.lt_of_lt_of_le h (Nat.le_add_right M L)
    · rw [if_neg hstreak]
      dsimp only
      cases hk : script st.fetches.length with
      | fail => exact ih _ h
      | page ps =>
        dsimp only
        by_cases hemp : ps.isEmpty = true
        · rw [if_pos hemp]
          exact ih _ h
        · rw [if_neg hemp]
          have hlen : (jumboProcessItems ps st.scraped).1.length ≤ L :=
            Nat.le_trans (jumboProcessItems_length_le ps st.scraped) (hL _ ps hk)
          by_cases hl2 : hitLimit (some M)
              (st.total + (jumboProcessItems ps st.scraped).1.length) = true
          · rw [if_pos hl2]
            show st.total + (jumboProcessItems ps st.scraped).1.length < M + L
            omega
          · rw [if_neg hl2]
            exact ih _ (hitLimit_false_lt hM (hitLimit_of_not hl2))

/-- C2 counterexample.  The Jumbo category loop checks `max_products`
only after persisting and counting a whole page: with `maxProducts = 1` and a
page of two fresh products, `total_scraped` reaches 2 > 1 and both products
are persisted to the store — the counter exceeds M and an item beyond the
M-th is both counted and persisted. -/
theorem limit_overshoot_counterexample :
    (jumboCatLoop (some 1) 100 (fun _ => .page [⟨some 1, 0⟩, ⟨some 2, 0⟩]) 5
      ⟨[], 0, 0, 0, .missing, [], 0⟩).total = 2 ∧
    (jumboCatLoop (some 1) 100 (fun _ => .page [⟨some 1, 0⟩, ⟨some 2, 0⟩]) 5
      ⟨[], 0, 0, 0, .missing, [], 0⟩).file
      = .valid [⟨some 1, 0⟩, ⟨some 2, 0⟩] := by
  exact ⟨rfl, rfl⟩

/-- C2 amended.  With an active limit `M > 0`: the AH, Kruidvat and Plus
category loops never let `totalScraped` exceed M (their per-item checks stop
counting at the M-th item); the Jumbo loop checks the limit only once per
page after persisting it, so its `totalScraped` can overshoot M, but by less
than one page: it stays below `M + L` whenever every page carries at most `L`
items, and the loop stops at the first page on which the limit is reached. -/
theorem limit_enforcement_amended (M L B fuel : Nat) (hM : 0 < M)
    (ascript : Nat → AHPage) (kscript : Nat → KPage) (pscript : Nat → PPage)
    (jscript : Nat → JPage)
    (ast : AHCatState) (kst : KCatState) (pst : PCatState) (jst : JCatState)
    (hA : ast.total ≤ M) (hK : kst.total ≤ M) (hPp : pst.total ≤ M)
    (hJ : jst.total < M)
    (hL : ∀ k ps, jscript k = JPage.page ps → ps.length ≤ L) :
    (ahCatLoop (some M) ascript fuel ast).total ≤ M ∧
    (kvCatLoop (some M) kscript fuel kst).total ≤ M ∧
    (plusCatLoop (some M) pscript fuel pst).total ≤ M ∧
    (jumboCatLoop (some M) B jscript fuel jst).total < M + L :=
  ⟨ahCatLoop_total_le M hM ascript fuel ast hA,
   kvCatLoop_total_le M hM kscript fuel kst hK,
   plusCatLoop_total_le M hM pscript fuel pst hPp,
   jumboCatLoop_total_lt M L B hM jscript hL fuel jst hJ⟩

/-- Witness for C2 amended: limit M = 1 against two-item pages (L = 2). -/
theorem limit_enforcement_amended_witness :
    (ahCatLoop (some 1) (fun _ => .page [⟨some 1, 0⟩, ⟨some 2, 0⟩]) 5
      ⟨[], 0, [], 0, 0⟩).total ≤ 1 ∧
    (kvCatLoop (some 1) (fun _ => .page [⟨some 1, none, 0⟩, ⟨some 2, none, 0⟩] 0) 5
      ⟨[], 0, 0, 0, 0, .missing, 0⟩).total ≤ 1 ∧
    (plusCatLoop (some 1) (fun _ => .result [⟨some 1, 0⟩, ⟨some 2, 0⟩] true) 5
      ⟨[], 0, 0, 1, 0, 0⟩).total ≤ 1 ∧
    (jumboCatLoop (some 1) 100 (fun _ => .page [⟨some 1, 0⟩, ⟨some 2, 0⟩]) 5
      ⟨[], 0, 0, 0, .missing, [], 0⟩).total < 1 + 2 := by
  have h := limit_enforcement_amended 1 2 100 5 (by decide)
    (fun _ => .page [⟨some 1, 0⟩, ⟨some 2, 0⟩])
    (fun _ => .page [⟨some 1, none, 0⟩, ⟨some 2, none, 0⟩] 0)
    (fun _ => .result [⟨some 1, 0⟩, ⟨some 2, 0⟩] true)
    (fun _ => .page [⟨some 1, 0⟩, ⟨some 2, 0⟩])
    ⟨[], 0, [], 0, 0⟩ ⟨[], 0, 0, 0, 0, .missing, 0⟩ ⟨[], 0, 0, 1, 0, 0⟩
    ⟨[], 0, 0, 0, .missing, [], 0⟩
    (by decide) (by decide) (by decide) (by decide)
    (fun k ps hp => by
      injection hp with h1
      exact h1 ▸ (by decide))
  exact h

/-- C6 counterexample.  After a page that returns zero items, the Jumbo
loop advances the offset by the configured batch size, not by the actual
number of items returned (0): with batch size 100, the fetch after an empty
page at offset 0 is issued at offset 100, not at offset 0. -/
theorem cursor_advance_counterexample :
    (jumboCatLoop none 100
      (fun k => if k = 0 then JPage.page [] else .page [⟨some 1, 0⟩]) 2
      ⟨[], 0, 0, 0, .missing, [], 0⟩).fetches = [0, 100] := by
  decide

theorem fetchPairs_append (F : List Nat) (o : Nat) (A : Nat → Nat)
    (hp : FetchPairs A F) (hl : FetchLastInv A F o) :
    FetchPairs A (F ++ [o]) := by
  intro i x y hx hy
  have hylt : i + 1 < F.length + 1 := by
    obtain ⟨hlt, -⟩ := List.get?_eq_some.mp hy
    simpa [List.length_append] using hlt
  rcases Nat.lt_or_ge (i + 1) F.length with hcase | hcase
  · rw [List.get?_append (by omega)] at hx
    rw [List.get?_append hcase] at hy
    exact hp i x y hx hy
  · have heq : i + 1 = F.length := by omega
    rw [List.get?_append (by omega)] at hx
    have hyo : (F ++ [o]).get? (i + 1) = some o := by
      rw [heq]
      exact List.get?_concat_length F o
    rw [hy] at hyo
    injection hyo with hyo
    have hxx : F.get? (F.length - 1) = some x := by
      rw [show F.length - 1 = i by omega]
      exact hx
    have hlx := hl x hxx
    rw [show F.length - 1 = i by omega] at hlx
    omega

theorem jumboCatLoop_fetch_pairs (maxP : Option Nat) (B : Nat)
    (script : Nat → JPage) :
    ∀ (fuel : Nat) (st : JCatState),
      FetchPairs (jumboAdvance B script) st.fetches →
      FetchLastInv (jumboAdvance B script) st.fetches st.offset →
      FetchPairs (jumboAdvance B script)
        (jumboCatLoop maxP B script fuel st).fetches := by
  intro fuel
  induction fuel with
  | zero =>
    intro st hp hl
    exact hp
  | succ n ih =>
    intro st hp hl
    rw [jumboCatLoop]
    by_cases hstreak : JUMBO_MAX_EMPTY_PAGES ≤ st.emptyStreak
    · rw [if_pos hstreak]
      exact hp
    · rw [if_neg hstreak]
      dsimp only
      have hp' : FetchPairs (jumboAdvance B script)
          (st.fetches ++ [st.offset]) :=
        fetchPairs_append st.fetches st.offset _ hp hl
      have hlen' : (st.fetches ++ [st.offset]).length - 1 = st.fetches.length := by
        simp
      have hlast : ∀ x,
          (st.fetches ++ [st.offset]).get?
            ((st.fetches ++ [st.offset]).length - 1) = some x →
          x = st.offset := by
        intro x hx
        rw [hlen', List.get?_concat_length] at hx
        injection hx with hx
        exact hx.symm
      cases hk : script st.fetches.length with
      | fail =>
        apply ih
        · exact hp'
        · intro x hx
          have hxo := hlast x hx
          rw [hlen']
          simp only [jumboAdvance, hk]
          omega
      | page ps =>
        dsimp only
        by_cases hemp : ps.isEmpty = true
        · rw [if_pos hemp]
          have hps : ps = [] := by simpa using hemp
          apply ih
          · exact hp'
          · intro x hx
            have hxo := hlast x hx
            rw [hlen']
            simp only [jumboAdvance, hk, hps]
            omega
        · rw [if_neg hemp]
          by_cases hlim : hitLimit maxP
              (st.total + (jumboProcessItems ps st.scraped).1.length) = true
          · rw [if_pos hlim]
            exact hp'
          · rw [if_neg hlim]
            apply ih
            · exact hp'
            · intro x hx
              have hxo := hlast x hx
              rw [hlen']
              cases ps with
              | nil => exact absurd rfl hemp
              | cons q qs =>
                simp only [jumboAdvance, hk]
                have hpos : (0 : Nat) < (q :: qs).length := by simp
                rw [if_pos hpos]
                omega

/-- C6 amended.  In the Jumbo offset-based harvesting loop, each
consecutive pair of requested offsets differs by the number of items actually
returned when the fetched page was successful and non-empty, and by the
configured batch size when the page failed or returned zero items. -/
theorem cursor_advance_amended (maxP : Option Nat) (B : Nat)
    (script : Nat → JPage) (fuel i x y : Nat)
    (hx : (jumboCatLoop maxP B script fuel
      ⟨[], 0, 0, 0, .missing, [], 0⟩).fetches.get? i = some x)
    (hy : (jumboCatLoop maxP B script fuel
      ⟨[], 0, 0, 0, .missing, [], 0⟩).fetches.get? (i + 1) = some y) :
    y = x + jumboAdvance B script i := by
  refine jumboCatLoop_fetch_pairs maxP B script fuel
    ⟨[], 0, 0, 0, .missing, [], 0⟩ ?_ ?_ i x y hx hy
  · intro i x y hx _
    exact absurd hx (by simp)
  · intro x hx
    exact absurd hx (by simp)

/-- Witness for C6 amended: in the counterexample run extended by one more
page, the third fetch offset (101) is the second (100) plus the actual size
(1) of the non-empty page fetched second. -/
theorem cursor_advance_amended_witness :
    (101 : Nat) = 100 + jumboAdvance 100
      (fun k => if k = 0 then JPage.page [] else .page [⟨some 1, 0⟩]) 1 :=
  cursor_advance_amended none 100
    (fun k => if k = 0 then JPage.page [] else .page [⟨some 1, 0⟩]) 3 1 100 101
    (by decide) (by decide)

end Omfietser
